import Mathlib

/-!
Verification development for the `disk_simulator_v2` repository.

The on-disk filesystem engine (`src/include/disk_fs.h`, `src/src/*.cpp`) is
shallowly embedded below.  The disk image is modelled with one typed field per
layout region (superblock, block bitmap, inode bitmap, inode table, data
region, and the root directory's data block viewed as a `DirEntry` array);
the regions are disjoint in the byte-exact layout, so block reads and writes
of each C++ routine act on exactly one of these fields.  Machine integers are
`Nat`/`Int` with explicit `% 2^32` (for `uint32_t` counters) and `% 2^64`
(for `size_t`) where overflow matters.  File I/O through the backing
`std::fstream` is assumed to succeed; the explicit range checks performed by
`read_block`/`write_block` (`block_num >= total_blocks`) are kept, since they
are the only failure sources that are decided by the modelled state.
Loops are written as fuel-indexed structural recursions; every call site
passes enough fuel that the fuel-exhaustion branch coincides with the loop's
natural exit, so the embedded functions compute by kernel reduction.
-/

/-- Block size in bytes (`BLOCK_SIZE` in `disk_fs.h`). -/
def BLOCK_SIZE : Nat := 4096

/-- Size of one inode record in bytes (`INODE_SIZE` in `disk_fs.h`). -/
def INODE_SIZE : Nat := 96

/-- Maximum file-name length including the terminator (`MAX_FILENAME`). -/
def MAX_FILENAME : Nat := 28

/-- Total number of inodes (`MAX_INODES`). -/
def MAX_INODES : Nat := 1024

/-- Total number of blocks of the 100 MiB image (`MAX_BLOCKS`). -/
def MAX_BLOCKS : Nat := (1024 * 1024 * 100) / BLOCK_SIZE

/-- Size of one packed `DirEntry` record: `char name[28]`, `uint32_t
inode_num`, `uint8_t valid`, padded to 4-byte alignment, hence 36 bytes. -/
def DIRENTRY_SIZE : Nat := 36

/-- Number of directory slots in the root directory's single data block
(`BLOCK_SIZE / sizeof(DirEntry)` in `create_file`/`delete_file`). -/
def DIR_ENTRY_COUNT : Nat := BLOCK_SIZE / DIRENTRY_SIZE

/-- Modulus of `uint32_t` arithmetic. -/
def U32 : Nat := 2 ^ 32

/-- Modulus of `size_t` arithmetic. -/
def U64 : Nat := 2 ^ 64

/-- A `uint32_t` decrement (`x--`), wrapping at zero. -/
def u32dec (x : Nat) : Nat := (x + (U32 - 1)) % U32

/-- A `uint32_t` increment (`x++`), wrapping at `2^32 - 1`. -/
def u32inc (x : Nat) : Nat := (x + 1) % U32

/-- The layout constants recomputed by `format` and the bitmap routines from
`MAX_BLOCKS`/`MAX_INODES`: one superblock block. -/
def super_block_blocks : Nat := 1

/-- Bytes needed by the block bitmap (`(MAX_BLOCKS + 7) / 8`). -/
def block_bitmap_total_bytes : Nat := (MAX_BLOCKS + 7) / 8

/-- Blocks occupied by the block bitmap. -/
def block_bitmap_size : Nat := (block_bitmap_total_bytes + BLOCK_SIZE - 1) / BLOCK_SIZE

/-- Bytes needed by the inode bitmap (`(MAX_INODES + 7) / 8`). -/
def inode_bitmap_total_bytes : Nat := (MAX_INODES + 7) / 8

/-- Blocks occupied by the inode bitmap. -/
def inode_bitmap_size : Nat := (inode_bitmap_total_bytes + BLOCK_SIZE - 1) / BLOCK_SIZE

/-- Blocks occupied by the inode table (`(MAX_INODES * INODE_SIZE + BLOCK_SIZE - 1) / BLOCK_SIZE`). -/
def inode_area_size : Nat := (MAX_INODES * INODE_SIZE + BLOCK_SIZE - 1) / BLOCK_SIZE

/-- The 8-byte magic field written by `format`: `"SIMFSv1"` plus a NUL. -/
def MAGIC : List Nat := [83, 73, 77, 70, 83, 118, 49, 0]

/-- Overlay semantics of `memcpy(dst + dstOff, src + srcOff, len)` on byte
buffers modelled as functions from byte index to byte value. -/
def overlay (dst : Nat → Nat) (dstOff : Nat) (src : Nat → Nat) (srcOff len : Nat) :
    Nat → Nat :=
  fun j => if dstOff ≤ j ∧ j < dstOff + len then src (srcOff + (j - dstOff)) else dst j

/-- Linear scan returning the first index `i`, starting at `start` and
visiting at most `fuel` indices, such that `p i` holds.  This is the shape of
every first-fit loop in the source (`find_free_block`, `find_free_inode`, the
directory-slot scans). -/
def scanFind (p : Nat → Bool) : Nat → Nat → Option Nat
  | 0, _ => none
  | fuel + 1, start => if p start then some start else scanFind p fuel (start + 1)

/-- Superblock record (`struct SuperBlock` in `disk_fs.h`). -/
structure SuperBlock where
  magic : List Nat
  block_size : Nat
  total_blocks : Nat
  inode_blocks : Nat
  data_blocks : Nat
  total_inodes : Nat
  free_blocks : Nat
  free_inodes : Nat
  block_bitmap : Nat
  inode_bitmap : Nat
  inode_start : Nat
  data_start : Nat
deriving DecidableEq

/-- Inode record (`struct Inode` in `disk_fs.h`); the 16 direct block
pointers are modelled as a function read at indices `0..15`. -/
structure Inode where
  inode_num : Nat
  size : Nat
  blocks : Nat → Nat
  type : Nat
  used : Nat
  create_time : Nat
  modify_time : Nat

/-- Directory entry (`struct DirEntry` in `disk_fs.h`).  Names are modelled
as `String`s; `strncpy` with the length precondition `name.length() <
MAX_FILENAME` stores the name verbatim. -/
structure DirEntry where
  name : String
  inode_num : Nat
  valid : Nat
deriving DecidableEq

/-- The `DiskFS` object together with the backing image.  `super_block` is the
in-memory copy, `disk_super_block` the record stored in block 0 of the image.
`block_bitmap_bits i` is bit `i` of the block-bitmap region (bit `(i mod 8)`
of byte `(i div 8)`), and similarly for `inode_bitmap_bits`.  `inode_table`
is the inode region indexed by inode number, `data` gives the byte content of
each absolute block number of the data region, and `dir` is the `DirEntry`
array stored in the root directory's data block.  `clock` stands for
`time(nullptr)`. -/
structure DiskFS where
  is_mounted : Bool
  super_block : SuperBlock
  disk_super_block : SuperBlock
  block_bitmap_bits : Nat → Bool
  inode_bitmap_bits : Nat → Bool
  inode_table : Nat → Inode
  data : Nat → Nat → Nat
  dir : Nat → DirEntry
  clock : Nat

/-- `DiskFS::write_super_block`: copy the in-memory superblock to block 0 of
the image.  The `fstream` write is assumed to succeed. -/
def DiskFS.write_super_block (fs : DiskFS) : Bool × DiskFS :=
  (true, { fs with disk_super_block := fs.super_block })

/-- `DiskFS::set_block_bitmap`.  The source decomposes the bit index as
`idx = bitmap_block_idx * (BLOCK_SIZE*8) + byte * 8 + bit`; reading and
rewriting that single byte of the bitmap region is the point update of
`block_bitmap_bits` at `idx`.  The `read_block` range check on the bitmap
block is kept; the in-block `byte >= BLOCK_SIZE` check of the source is
vacuous (`byte = (idx % 32768) / 8 < 4096`) and elided. -/
def DiskFS.set_block_bitmap (fs : DiskFS) (block_num : Nat) (used : Bool) :
    Bool × DiskFS :=
  let sb := fs.super_block
  let data_end := sb.data_start + sb.data_blocks
  if block_num < sb.data_start ∨ block_num ≥ data_end then (false, fs)
  else
    let idx := block_num - sb.data_start
    let bitmap_block_idx := idx / (BLOCK_SIZE * 8)
    if bitmap_block_idx ≥ block_bitmap_size then (false, fs)
    else if sb.block_bitmap + bitmap_block_idx ≥ sb.total_blocks then (false, fs)
    else
      let cur := fs.block_bitmap_bits idx
      let sb2 :=
        if used then
          if cur = false then { sb with free_blocks := u32dec sb.free_blocks } else sb
        else
          if cur = true then { sb with free_blocks := u32inc sb.free_blocks } else sb
      let fs2 := { fs with
        block_bitmap_bits := Function.update fs.block_bitmap_bits idx used,
        super_block := sb2 }
      fs2.write_super_block

/-- `DiskFS::set_inode_bitmap`; same structure as `set_block_bitmap` on the
inode-bitmap region. -/
def DiskFS.set_inode_bitmap (fs : DiskFS) (inode_num : Nat) (used : Bool) :
    Bool × DiskFS :=
  let sb := fs.super_block
  if inode_num ≥ sb.total_inodes then (false, fs)
  else
    let bitmap_block_idx := inode_num / (BLOCK_SIZE * 8)
    if bitmap_block_idx ≥ inode_bitmap_size then (false, fs)
    else if sb.inode_bitmap + bitmap_block_idx ≥ sb.total_blocks then (false, fs)
    else
      let cur := fs.inode_bitmap_bits inode_num
      let sb2 :=
        if used then
          if cur = false then { sb with free_inodes := u32dec sb.free_inodes } else sb
        else
          if cur = true then { sb with free_inodes := u32inc sb.free_inodes } else sb
      let fs2 := { fs with
        inode_bitmap_bits := Function.update fs.inode_bitmap_bits inode_num used,
        super_block := sb2 }
      fs2.write_super_block

/-- `DiskFS::find_free_block`: scan the block bitmap (read from its first
block, which covers the whole data region for the formatted layout, where
`data_blocks ≤ 32768`) and return the absolute block number `data_start + i`
of the first zero bit, or `-1`. -/
def DiskFS.find_free_block (fs : DiskFS) : Int :=
  if fs.super_block.block_bitmap ≥ fs.super_block.total_blocks then -1
  else
    match scanFind (fun i => !(fs.block_bitmap_bits i)) fs.super_block.data_blocks 0 with
    | some i => ((fs.super_block.data_start + i : Nat) : Int)
    | none => -1

/-- The bitmap-block loop of `DiskFS::find_free_inode`.  Each iteration
reads one inode-bitmap block through `read_block`; when that block's number
`inode_bitmap + idx` fails the `block_num < total_blocks` range check the
source `continue`s past it.  On a readable block the nested byte/bit loops
enumerate the global inode numbers `idx * 32768 + byte * 8 + bit` in
increasing order, returning `-1` as soon as the number reaches
`total_inodes` and the number itself at the first zero bit; a fully set
readable block falls through to the next iteration. -/
def ffiBlocks (fs : DiskFS) : Nat → Nat → Int
  | 0, _ => -1
  | fuel + 1, idx =>
    if fs.super_block.inode_bitmap + idx ≥ fs.super_block.total_blocks then
      ffiBlocks fs fuel (idx + 1)
    else
      match scanFind
          (fun g => decide (g ≥ fs.super_block.total_inodes) || !(fs.inode_bitmap_bits g))
          (BLOCK_SIZE * 8) (idx * (BLOCK_SIZE * 8)) with
      | some g => if g ≥ fs.super_block.total_inodes then -1 else (g : Int)
      | none => ffiBlocks fs fuel (idx + 1)

/-- `DiskFS::find_free_inode`: loop over the
`(total_inodes + bits_per_block - 1) / bits_per_block` inode-bitmap
blocks. -/
def DiskFS.find_free_inode (fs : DiskFS) : Int :=
  ffiBlocks fs
    ((fs.super_block.total_inodes + (BLOCK_SIZE * 8 - 1)) / (BLOCK_SIZE * 8)) 0

/-- `DiskFS::list_files`: collect the valid directory entries of the root
block, skipping slot 0 when it is the reserved `"."` entry. -/
def DiskFS.list_files (fs : DiskFS) : List DirEntry :=
  if !fs.is_mounted then []
  else
    let root_inode := fs.inode_table 0
    if root_inode.type ≠ 2 then []
    else if root_inode.blocks 0 ≥ fs.super_block.total_blocks then []
    else
      ((List.range DIR_ENTRY_COUNT).filter
        (fun i => ((fs.dir i).valid != 0) && !((i == 0) && ((fs.dir i).name == ".")))).map
        fs.dir

/-- `DiskFS::open_file`: name lookup through `list_files`. -/
def DiskFS.open_file (fs : DiskFS) (name : String) : Int :=
  if !fs.is_mounted then -1
  else
    match (fs.list_files).find? (fun e => (e.valid != 0) && (name == e.name)) with
    | some e => (e.inode_num : Int)
    | none => -1

/-- The inode record `memset` to zero with `inode_num = i` and `used = 0`,
written by `format` for every inode other than the root. -/
def blankInode (i : Nat) : Inode :=
  { inode_num := i, size := 0, blocks := fun _ => 0, type := 0, used := 0,
    create_time := 0, modify_time := 0 }

/-- The reserved `"."` self-entry of the root directory. -/
def dotEntry : DirEntry := { name := ".", inode_num := 0, valid := 1 }

/-- An all-zero (tombstone) directory slot. -/
def emptyEntry : DirEntry := { name := "", inode_num := 0, valid := 0 }

/-- `DiskFS::create_file`.  The inode write before `set_inode_bitmap` is
assumed to succeed (its failure branch returns before any bitmap mutation);
the directory-block read keeps `read_block`'s range check, and on a full
directory the freshly set inode-bitmap bit is rolled back. -/
def DiskFS.create_file (fs : DiskFS) (name : String) : Int × DiskFS :=
  if !fs.is_mounted || name == "" || decide (name.length ≥ MAX_FILENAME) then (-1, fs)
  else if (fs.list_files).any (fun e => (e.valid != 0) && (name == e.name)) then (-1, fs)
  else
    let root_inode := fs.inode_table 0
    if root_inode.type ≠ 2 then (-1, fs)
    else if root_inode.blocks 0 = 0 then (-1, fs)
    else
      let fi := fs.find_free_inode
      if fi = -1 then (-1, fs)
      else
        let inum := fi.toNat
        let new_inode : Inode :=
          { inode_num := 0, size := 0, blocks := fun _ => 0, type := 1, used := 1,
            create_time := fs.clock, modify_time := fs.clock }
        let fs1 := { fs with inode_table := Function.update fs.inode_table inum new_inode }
        let fs2 := (fs1.set_inode_bitmap inum true).2
        if root_inode.blocks 0 ≥ fs2.super_block.total_blocks then
          (-1, (fs2.set_inode_bitmap inum false).2)
        else
          match scanFind (fun i => (fs2.dir i).valid == 0) (DIR_ENTRY_COUNT - 1) 1 with
          | none => (-1, (fs2.set_inode_bitmap inum false).2)
          | some free_index =>
            let entry : DirEntry := { name := name, inode_num := inum, valid := 1 }
            let fs3 := { fs2 with dir := Function.update fs2.dir free_index entry }
            let root2 := { root_inode with modify_time := fs.clock }
            let fs4 := { fs3 with inode_table := Function.update fs3.inode_table 0 root2 }
            ((inum : Int), fs4)

/-- The block-copy loop of `DiskFS::read_file`.  `fuel` bounds the number of
iterations; every call passes `fuel = read_size`, and since each iteration
either exits or advances `bytes_read` by at least one byte, the fuel never
runs out before the loop condition `bytes_read < read_size` fails. -/
def readLoop (fs : DiskFS) (inode : Inode) (read_size : Nat) :
    Nat → Nat → Nat → (Nat → Nat) → Int × (Nat → Nat)
  | fuel, bytes_read, current_offset, buffer =>
    if bytes_read ≥ read_size then ((bytes_read : Int), buffer)
    else
      match fuel with
      | 0 => ((bytes_read : Int), buffer)
      | fuel + 1 =>
        let block_idx := current_offset / BLOCK_SIZE
        if block_idx ≥ 16 then ((bytes_read : Int), buffer)
        else
          let block_num := inode.blocks block_idx
          if block_num = 0 then ((bytes_read : Int), buffer)
          else if block_num ≥ fs.super_block.total_blocks then (-1, buffer)
          else
            let in_block_offset := current_offset % BLOCK_SIZE
            let read_from_block :=
              min (BLOCK_SIZE - in_block_offset) (read_size - bytes_read)
            let buffer2 :=
              overlay buffer bytes_read (fs.data block_num) in_block_offset read_from_block
            readLoop fs inode read_size fuel (bytes_read + read_from_block)
              (current_offset + read_from_block) buffer2

/-- `DiskFS::read_file`.  The source computes `size_t max_read = inode.size -
offset` with the subtraction performed in signed 64-bit arithmetic and the
result converted to `size_t`, i.e. reduced modulo `2^64`; the subsequent
`max_read <= 0` test on the unsigned value only catches `max_read == 0`.
Returns the `int` result together with the caller's buffer contents. -/
def DiskFS.read_file (fs : DiskFS) (inode_num : Int) (buffer : Nat → Nat)
    (size : Nat) (offset : Nat) : Int × (Nat → Nat) :=
  if !fs.is_mounted || decide (inode_num < 0) ||
      decide (inode_num ≥ (fs.super_block.total_inodes : Int)) then (-1, buffer)
  else
    let inode := fs.inode_table inode_num.toNat
    if inode.used = 0 ∨ inode.type ≠ 1 then (-1, buffer)
    else
      let max_read : Nat := (((inode.size : Int) - (offset : Int)) % (U64 : Int)).toNat
      if max_read = 0 then (0, buffer)
      else
        let read_size := min size max_read
        if read_size = 0 then (0, buffer)
        else readLoop fs inode read_size read_size 0 offset buffer

/-- Result of the write loop: `fail` is an early `return -1` (carrying the
already mutated filesystem), `done` is a normal loop exit. -/
inductive WriteRes where
  | fail (fs : DiskFS)
  | done (bytes_written : Nat) (inode : Inode) (fs : DiskFS)

/-- The block-copy loop of `DiskFS::write_file`; fuel as in `readLoop`
(every call passes `fuel = size`).  A zero block pointer triggers allocation
through `find_free_block`/`set_block_bitmap` (whose return value the source
ignores) and starts from a zeroed scratch buffer; otherwise the existing
block is read.  `read_block` and `write_block` both guard `block_num <
total_blocks`. -/
def writeLoop (buffer : Nat → Nat) (size : Nat) :
    Nat → DiskFS → Inode → Nat → Nat → WriteRes
  | fuel, fs, inode, bytes_written, current_offset =>
    if bytes_written ≥ size then .done bytes_written inode fs
    else
      match fuel with
      | 0 => .done bytes_written inode fs
      | fuel + 1 =>
        let block_idx := current_offset / BLOCK_SIZE
        if block_idx ≥ 16 then .done bytes_written inode fs
        else if inode.blocks block_idx = 0 then
          let fb := fs.find_free_block
          if fb = -1 then .done bytes_written inode fs
          else
            let block_num := fb.toNat
            let inode2 := { inode with blocks := Function.update inode.blocks block_idx block_num }
            let fs2 := (fs.set_block_bitmap block_num true).2
            let in_block_offset := current_offset % BLOCK_SIZE
            let write_to_block := min (BLOCK_SIZE - in_block_offset) (size - bytes_written)
            let scratch := overlay (fun _ => 0) in_block_offset buffer bytes_written write_to_block
            if block_num ≥ fs2.super_block.total_blocks then .fail fs2
            else
              writeLoop buffer size fuel
                { fs2 with data := Function.update fs2.data block_num scratch } inode2
                (bytes_written + write_to_block) (current_offset + write_to_block)
        else
          let block_num := inode.blocks block_idx
          if block_num ≥ fs.super_block.total_blocks then .fail fs
          else
            let in_block_offset := current_offset % BLOCK_SIZE
            let write_to_block := min (BLOCK_SIZE - in_block_offset) (size - bytes_written)
            let scratch := overlay (fs.data block_num) in_block_offset buffer bytes_written write_to_block
            writeLoop buffer size fuel
              { fs with data := Function.update fs.data block_num scratch } inode
              (bytes_written + write_to_block) (current_offset + write_to_block)

/-- `DiskFS::write_file`.  After the loop, `inode.size` is extended to
`offset + bytes_written` when that exceeds it (a `uint32_t` store, hence the
`% 2^32`), `modify_time` is stamped, and the inode is written back. -/
def DiskFS.write_file (fs : DiskFS) (inode_num : Int) (buffer : Nat → Nat)
    (size : Nat) (offset : Nat) : Int × DiskFS :=
  if !fs.is_mounted || decide (inode_num < 0) ||
      decide (inode_num ≥ (fs.super_block.total_inodes : Int)) || size == 0 then (-1, fs)
  else
    let inode := fs.inode_table inode_num.toNat
    if inode.used = 0 ∨ inode.type ≠ 1 then (-1, fs)
    else
      match writeLoop buffer size size fs inode 0 offset with
      | .fail fs2 => (-1, fs2)
      | .done bytes_written inode2 fs2 =>
        let inode3 :=
          if offset + bytes_written > inode2.size then
            { inode2 with size := (offset + bytes_written) % U32, modify_time := fs.clock }
          else { inode2 with modify_time := fs.clock }
        let fs3 := { fs2 with
          inode_table := Function.update fs2.inode_table inode_num.toNat inode3 }
        ((bytes_written : Int), fs3)

/-- The block-release loop of `DiskFS::delete_file`: for `i` in `[0, 16)`,
clear the bitmap bit of each non-zero `blocks[i]` (return value ignored) and
zero the pointer. -/
def freeBlocksLoop : Nat → Nat → DiskFS → Inode → DiskFS × Inode
  | 0, _, fs, inode => (fs, inode)
  | fuel + 1, i, fs, inode =>
    if inode.blocks i ≠ 0 then
      let fs2 := (fs.set_block_bitmap (inode.blocks i) false).2
      freeBlocksLoop fuel (i + 1) fs2 { inode with blocks := Function.update inode.blocks i 0 }
    else freeBlocksLoop fuel (i + 1) fs inode

/-- `DiskFS::delete_file`.  The directory scan starts at slot 1; the found
entry's inode must be a used regular file.  Out-of-range `inode_num` values
in directory entries (for which `get_inode_pos` would degenerate to byte 0)
do not occur in the well-formed states quantified over by the theorems. -/
def DiskFS.delete_file (fs : DiskFS) (name : String) : Bool × DiskFS :=
  if !fs.is_mounted then (false, fs)
  else
    let root_inode := fs.inode_table 0
    if root_inode.type ≠ 2 then (false, fs)
    else if root_inode.blocks 0 ≥ fs.super_block.total_blocks then (false, fs)
    else
      match scanFind
          (fun i => ((fs.dir i).valid != 0) && (name == (fs.dir i).name))
          (DIR_ENTRY_COUNT - 1) 1 with
      | none => (false, fs)
      | some target_entry_idx =>
        let target_inode := (fs.dir target_entry_idx).inode_num
        let file_inode := fs.inode_table target_inode
        if file_inode.used = 0 ∨ file_inode.type ≠ 1 then (false, fs)
        else
          let p := freeBlocksLoop 16 0 fs file_inode
          let file2 := { p.2 with used := 0 }
          let fs2 := { p.1 with
            inode_table := Function.update p.1.inode_table target_inode file2 }
          let fs3 := (fs2.set_inode_bitmap target_inode false).2
          let fs4 := { fs3 with
            dir := Function.update fs3.dir target_entry_idx
              { fs3.dir target_entry_idx with valid := 0 } }
          let root2 := { root_inode with modify_time := fs.clock }
          let fs5 := { fs4 with inode_table := Function.update fs4.inode_table 0 root2 }
          (true, fs5)

/-- The superblock composed by `format` before the root is reserved:
`data_blocks = free_blocks = MAX_BLOCKS - (1 + block_bitmap_size +
inode_bitmap_size + inode_blocks)`, `free_inodes = MAX_INODES`, and the four
region start blocks in layout order. -/
def fmtSB0 : SuperBlock :=
  { magic := MAGIC, block_size := BLOCK_SIZE, total_blocks := MAX_BLOCKS,
    inode_blocks := inode_area_size,
    data_blocks := MAX_BLOCKS -
      (super_block_blocks + block_bitmap_size + inode_bitmap_size + inode_area_size),
    total_inodes := MAX_INODES,
    free_blocks := MAX_BLOCKS -
      (super_block_blocks + block_bitmap_size + inode_bitmap_size + inode_area_size),
    free_inodes := MAX_INODES,
    block_bitmap := super_block_blocks,
    inode_bitmap := super_block_blocks + block_bitmap_size,
    inode_start := super_block_blocks + block_bitmap_size + inode_bitmap_size,
    data_start := super_block_blocks + block_bitmap_size + inode_bitmap_size + inode_area_size }

/-- The image state after `format` has written the initial superblock and
zeroed both bitmap regions (lines 57-91 of `disk_init.cpp`). -/
def fmtA (fs : DiskFS) : DiskFS :=
  { fs with
    super_block := fmtSB0,
    disk_super_block := fmtSB0,
    block_bitmap_bits := fun _ => false,
    inode_bitmap_bits := fun _ => false }

/-- The root inode composed by `format`: a used directory of one block. -/
def fmtRootI (clk b : Nat) : Inode :=
  { inode_num := 0, size := BLOCK_SIZE, blocks := Function.update (fun _ => 0) 0 b,
    type := 2, used := 1, create_time := clk, modify_time := clk }

/-- The inode-table initialization loop of `format`: inodes `1..MAX_INODES-1`
are overwritten with zeroed records carrying their index. -/
def fmtWithTable (fs2 : DiskFS) : DiskFS :=
  { fs2 with
    inode_table := fun i => if 1 ≤ i ∧ i < MAX_INODES then blankInode i else fs2.inode_table i }

/-- The root-inode write of `format`: inode 0 becomes a used directory whose
single block is the freshly found free block `rb`. -/
def fmtWithRoot (clk : Nat) (fs3 : DiskFS) (rb : Int) : DiskFS :=
  { fs3 with inode_table := Function.update fs3.inode_table 0 (fmtRootI clk rb.toNat) }

/-- The root-directory-block write of `format`: slot 0 holds the `"."`
self-entry, all other slots are zeroed tombstones. -/
def fmtWithDir (fs5 : DiskFS) : DiskFS :=
  { fs5 with dir := fun i => if i = 0 then dotEntry else emptyEntry }

/-- `DiskFS::format`.  The layout is computed from the compile-time
constants; the superblock, zeroed bitmaps (`fmtA`) and zeroed inode table
(`fmtWithTable`) are written, inode 0 is marked used, one data block is
allocated for the root, the root inode and the `"."` entry are written
(`fmtWithRoot`, `fmtWithDir`), and the block is marked used.  `is_mounted`
is not touched. -/
def DiskFS.format (fs : DiskFS) : Bool × DiskFS :=
  let fs2 := ((fmtA fs).set_inode_bitmap 0 true).2
  let fs3 := fmtWithTable fs2
  let rb := fs3.find_free_block
  if rb = -1 then (false, fs3)
  else
    let fs4 := fmtWithRoot fs.clock fs3 rb
    let fs5 := (fs4.set_block_bitmap rb.toNat true).2
    (true, fmtWithDir fs5)

/-- `DiskFS::mount`: a no-op returning `true` when already mounted;
otherwise the superblock is loaded from the image (clobbering the in-memory
copy even when the magic check then fails) and the magic's first 7 bytes are
validated. -/
def DiskFS.mount (fs : DiskFS) : Bool × DiskFS :=
  if fs.is_mounted then (true, fs)
  else
    let sb := fs.disk_super_block
    if sb.magic.take 7 = MAGIC.take 7 then
      (true, { fs with super_block := sb, is_mounted := true })
    else (false, { fs with super_block := sb })

/-- `DiskFS::unmount`: a no-op returning `true` when not mounted; otherwise
the in-memory superblock is written back and the state becomes unmounted. -/
def DiskFS.unmount (fs : DiskFS) : Bool × DiskFS :=
  if !fs.is_mounted then (true, fs)
  else (true, { fs with disk_super_block := fs.super_block, is_mounted := false })

/-- `DiskFS::get_file_size`: the `size` field of a used inode, `-1`
otherwise. -/
def DiskFS.get_file_size (fs : DiskFS) (inode_num : Int) : Int :=
  if !fs.is_mounted || decide (inode_num < 0) ||
      decide (inode_num ≥ (fs.super_block.total_inodes : Int)) then -1
  else
    let inode := fs.inode_table inode_num.toNat
    if inode.used = 0 then -1 else (inode.size : Int)

/-- `DiskFS::is_inode_used`: the `used` flag of an in-range inode of a
mounted filesystem. -/
def DiskFS.is_inode_used (fs : DiskFS) (inode_num : Nat) : Bool :=
  if inode_num ≥ fs.super_block.total_inodes then false
  else if !fs.is_mounted then false
  else (fs.inode_table inode_num).used != 0

/-- The all-zero superblock of a fresh, never-formatted image. -/
def zeroSB : SuperBlock := ⟨[], 0, 0, 0, 0, 0, 0, 0, 0, 0, 0, 0⟩

/-- A fresh `DiskFS` object over a zeroed backing file, before any
operation. -/
def initFS : DiskFS :=
  { is_mounted := false,
    super_block := zeroSB,
    disk_super_block := zeroSB,
    block_bitmap_bits := fun _ => false,
    inode_bitmap_bits := fun _ => false,
    inode_table := fun i => blankInode i,
    data := fun _ _ => 0,
    dir := fun _ => emptyEntry,
    clock := 1000 }

/-- The image right after `format()`. -/
def FS0 : DiskFS := (DiskFS.format initFS).2

/-- The filesystem after `format(); mount()`. -/
def FS1 : DiskFS := (DiskFS.mount FS0).2

/-- The filesystem after additionally `create_file("test1.txt")` (which
returns inode 1). -/
def FS2 : DiskFS := (DiskFS.create_file FS1 "test1.txt").2

/-- The 15-byte content `"hello, disk fs!"` of scenario S2, as a byte
function. -/
def helloContent : Nat → Nat :=
  fun j => [104, 101, 108, 108, 111, 44, 32, 100, 105, 115, 107, 32, 102, 115, 33].getD j 0

/-- The filesystem after additionally `write_file(1, "hello, disk fs!", 15, 0)`. -/
def FS3 : DiskFS := (DiskFS.write_file FS2 1 helloContent 15 0).2

/-- First-fit characterization of `scanFind`: it returns the least index at
or after `start` satisfying `p`, provided one exists within `fuel` steps. -/
theorem scanFind_eq_some (p : Nat → Bool) :
    ∀ (fuel start m : Nat), start ≤ m → m < start + fuel → p m = true →
      (∀ k, start ≤ k → k < m → p k = false) → scanFind p fuel start = some m := by
  intro fuel
  induction fuel with
  | zero => intro start m h1 h2 _ _; omega
  | succ n ih =>
    intro start m h1 h2 hp hmin
    by_cases hs : p start
    · have hm : start = m := by
        by_contra hne
        have := hmin start le_rfl (by omega)
        simp [this] at hs
      subst hm
      simp [scanFind, hs]
    · have h1' : start + 1 ≤ m := by
        rcases Nat.eq_or_lt_of_le h1 with h | h
        · subst h; simp [hp] at hs
        · omega
      simp only [scanFind, hs, Bool.false_eq_true, if_false]
      exact ih (start + 1) m h1' (by omega) hp (fun k hk1 hk2 => hmin k (by omega) hk2)

/-- `scanFind` returns `none` when no index in range satisfies `p`. -/
theorem scanFind_eq_none (p : Nat → Bool) :
    ∀ (fuel start : Nat), (∀ k, start ≤ k → k < start + fuel → p k = false) →
      scanFind p fuel start = none := by
  intro fuel
  induction fuel with
  | zero => intro start _; rfl
  | succ n ih =>
    intro start h
    have hs : p start = false := h start le_rfl (by omega)
    simp only [scanFind, hs, Bool.false_eq_true, if_false]
    exact ih (start + 1) (fun k hk1 hk2 => h k (by omega) (by omega))

/-- A `uint32_t` decrement always changes the value. -/
theorem u32dec_ne (x : Nat) : u32dec x ≠ x := by
  simp only [u32dec, U32]
  norm_num
  omega

/-- A `uint32_t` increment always changes the value. -/
theorem u32inc_ne (x : Nat) : u32inc x ≠ x := by
  simp only [u32inc, U32]
  norm_num
  omega

/-- Increment undoes decrement below the wrap-around point. -/
theorem u32inc_u32dec (x : Nat) (h : x < U32) : u32inc (u32dec x) = x := by
  simp only [u32inc, u32dec, U32] at *
  norm_num at *
  omega

/-- C10: mounting an already mounted filesystem returns success and is a
complete no-op (neither the in-memory object nor the image is touched), and
unmounting an unmounted filesystem likewise returns success without touching
anything; both entry points are idempotent. -/
theorem C10_mount_unmount_idempotent (fs : DiskFS) :
    (fs.is_mounted = true → fs.mount = (true, fs)) ∧
    (fs.is_mounted = false → fs.unmount = (true, fs)) := by
  constructor
  · intro h; simp [DiskFS.mount, h]
  · intro h; simp [DiskFS.unmount, h]

/-- Witness for C10 at concrete states: `FS1` is mounted, `FS0` is not. -/
theorem C10_witness :
    DiskFS.mount FS1 = (true, FS1) ∧ DiskFS.unmount FS0 = (true, FS0) :=
  ⟨(C10_mount_unmount_idempotent FS1).1 (by decide),
   (C10_mount_unmount_idempotent FS0).2 (by decide)⟩

/-- The superblock produced by a successful `set_block_bitmap` call: the
free-block counter moves only when bit `idx` transitions. -/
def blockBitSB (fs : DiskFS) (v : Bool) (idx : Nat) : SuperBlock :=
  if v then
    if fs.block_bitmap_bits idx = false then
      { fs.super_block with free_blocks := u32dec fs.super_block.free_blocks }
    else fs.super_block
  else
    if fs.block_bitmap_bits idx = true then
      { fs.super_block with free_blocks := u32inc fs.super_block.free_blocks }
    else fs.super_block

/-- The superblock produced by a successful `set_inode_bitmap` call. -/
def inodeBitSB (fs : DiskFS) (v : Bool) (idx : Nat) : SuperBlock :=
  if v then
    if fs.inode_bitmap_bits idx = false then
      { fs.super_block with free_inodes := u32dec fs.super_block.free_inodes }
    else fs.super_block
  else
    if fs.inode_bitmap_bits idx = true then
      { fs.super_block with free_inodes := u32inc fs.super_block.free_inodes }
    else fs.super_block

/-- Rewriting characterization of `set_block_bitmap` on an in-range block
number: it succeeds, updates the bit, adjusts `free_blocks` only on a
transition, and syncs the superblock to disk. -/
theorem set_block_bitmap_eq (fs : DiskFS) (b : Nat) (v : Bool)
    (h1 : fs.super_block.data_start ≤ b)
    (h2 : b < fs.super_block.data_start + fs.super_block.data_blocks)
    (h3 : (b - fs.super_block.data_start) / (BLOCK_SIZE * 8) < block_bitmap_size)
    (h4 : fs.super_block.block_bitmap +
        (b - fs.super_block.data_start) / (BLOCK_SIZE * 8) < fs.super_block.total_blocks) :
    fs.set_block_bitmap b v =
      (true,
        { fs with
          block_bitmap_bits :=
            Function.update fs.block_bitmap_bits (b - fs.super_block.data_start) v,
          super_block := blockBitSB fs v (b - fs.super_block.data_start),
          disk_super_block := blockBitSB fs v (b - fs.super_block.data_start) }) := by
  rw [DiskFS.set_block_bitmap]
  rw [if_neg (by omega), if_neg (by omega), if_neg (by omega)]
  rfl

/-- Rewriting characterization of `set_inode_bitmap` on an in-range inode
number. -/
theorem set_inode_bitmap_eq (fs : DiskFS) (i : Nat) (v : Bool)
    (h1 : i < fs.super_block.total_inodes)
    (h2 : i / (BLOCK_SIZE * 8) < inode_bitmap_size)
    (h3 : fs.super_block.inode_bitmap + i / (BLOCK_SIZE * 8) < fs.super_block.total_blocks) :
    fs.set_inode_bitmap i v =
      (true,
        { fs with
          inode_bitmap_bits := Function.update fs.inode_bitmap_bits i v,
          super_block := inodeBitSB fs v i,
          disk_super_block := inodeBitSB fs v i }) := by
  rw [DiskFS.set_inode_bitmap]
  rw [if_neg (by omega), if_neg (by omega), if_neg (by omega)]
  rfl

/-- Concrete value of `MAX_BLOCKS` (100 MiB of 4 KiB blocks). -/
theorem MAX_BLOCKS_eq : MAX_BLOCKS = 25600 := by norm_num [MAX_BLOCKS, BLOCK_SIZE]

/-- The block bitmap fits in one block. -/
theorem block_bitmap_size_eq : block_bitmap_size = 1 := by
  norm_num [block_bitmap_size, block_bitmap_total_bytes, MAX_BLOCKS_eq, BLOCK_SIZE]

/-- The inode bitmap fits in one block. -/
theorem inode_bitmap_size_eq : inode_bitmap_size = 1 := by
  norm_num [inode_bitmap_size, inode_bitmap_total_bytes, MAX_INODES, BLOCK_SIZE]

/-- The inode table occupies 24 blocks. -/
theorem inode_area_size_eq : inode_area_size = 24 := by
  norm_num [inode_area_size, MAX_INODES, INODE_SIZE, BLOCK_SIZE]

/-- The root directory block holds 113 slots. -/
theorem DIR_ENTRY_COUNT_eq : DIR_ENTRY_COUNT = 113 := by
  norm_num [DIR_ENTRY_COUNT, DIRENTRY_SIZE, BLOCK_SIZE]

/-- `find_free_block` returns `data_start + i` for the smallest free
data-region index `i`. -/
theorem find_free_block_eq (fs : DiskFS)
    (hb : fs.super_block.block_bitmap < fs.super_block.total_blocks)
    (i : Nat) (hi : i < fs.super_block.data_blocks)
    (hfree : fs.block_bitmap_bits i = false)
    (hmin : ∀ j, j < i → fs.block_bitmap_bits j = true) :
    fs.find_free_block = ((fs.super_block.data_start + i : Nat) : Int) := by
  rw [DiskFS.find_free_block, if_neg (by omega)]
  rw [scanFind_eq_some _ _ 0 i (Nat.zero_le i) (by omega) (by simp [hfree])
    (fun k _ hk => by simp [hmin k hk])]

/-- `find_free_block` returns `-1` when every data-region bit is set. -/
theorem find_free_block_eq_none (fs : DiskFS)
    (hb : fs.super_block.block_bitmap < fs.super_block.total_blocks)
    (hall : ∀ j, j < fs.super_block.data_blocks → fs.block_bitmap_bits j = true) :
    fs.find_free_block = -1 := by
  rw [DiskFS.find_free_block, if_neg (by omega)]
  rw [scanFind_eq_none _ _ 0 (fun k _ hk => by simp [hall k (by omega)])]

/-- One unfolding of the bitmap-block loop. -/
theorem ffiBlocks_succ (fs : DiskFS) (fuel idx : Nat) :
    ffiBlocks fs (fuel + 1) idx =
      if fs.super_block.inode_bitmap + idx ≥ fs.super_block.total_blocks then
        ffiBlocks fs fuel (idx + 1)
      else
        match scanFind
            (fun g => decide (g ≥ fs.super_block.total_inodes) ||
              !(fs.inode_bitmap_bits g))
            (BLOCK_SIZE * 8) (idx * (BLOCK_SIZE * 8)) with
        | some g => if g ≥ fs.super_block.total_inodes then -1 else (g : Int)
        | none => ffiBlocks fs fuel (idx + 1) := by
  simp only [ffiBlocks]

/-- `find_free_inode` returns the smallest free inode number, provided the
inode bitmap fits in one readable block (as in every formatted image). -/
theorem find_free_inode_eq (fs : DiskFS)
    (i : Nat) (hi : i < fs.super_block.total_inodes)
    (hfree : fs.inode_bitmap_bits i = false)
    (hmin : ∀ j, j < i → fs.inode_bitmap_bits j = true)
    (hti : fs.super_block.total_inodes ≤ BLOCK_SIZE * 8)
    (hib : fs.super_block.inode_bitmap < fs.super_block.total_blocks) :
    fs.find_free_inode = (i : Int) := by
  have h32 : BLOCK_SIZE * 8 = 32768 := by norm_num [BLOCK_SIZE]
  rw [DiskFS.find_free_inode]
  rw [show (fs.super_block.total_inodes + (BLOCK_SIZE * 8 - 1)) / (BLOCK_SIZE * 8) = 1
    from by rw [h32] at hti ⊢; omega]
  rw [ffiBlocks_succ, if_neg (by omega), Nat.zero_mul]
  rw [scanFind_eq_some _ _ 0 i (Nat.zero_le i) (by omega)
    (by simp [hfree])
    (fun k _ hk => by simp [hmin k hk]; omega)]
  simp [Nat.not_le.mpr hi]

/-- `find_free_inode` returns `-1` when every inode bit in range is set,
provided the inode bitmap fits in one readable block. -/
theorem find_free_inode_eq_none (fs : DiskFS)
    (hall : ∀ j, j < fs.super_block.total_inodes → fs.inode_bitmap_bits j = true)
    (hti : fs.super_block.total_inodes ≤ BLOCK_SIZE * 8)
    (hib : fs.super_block.inode_bitmap < fs.super_block.total_blocks) :
    fs.find_free_inode = -1 := by
  have h32 : BLOCK_SIZE * 8 = 32768 := by norm_num [BLOCK_SIZE]
  rw [DiskFS.find_free_inode]
  by_cases hT0 : fs.super_block.total_inodes = 0
  · rw [show (fs.super_block.total_inodes + (BLOCK_SIZE * 8 - 1)) / (BLOCK_SIZE * 8) = 0
      from by rw [h32] at hti ⊢; omega]
    rfl
  · rw [show (fs.super_block.total_inodes + (BLOCK_SIZE * 8 - 1)) / (BLOCK_SIZE * 8) = 1
      from by rw [h32] at hti ⊢; omega]
    rw [ffiBlocks_succ, if_neg (by omega), Nat.zero_mul]
    by_cases hTB : fs.super_block.total_inodes = BLOCK_SIZE * 8
    · rw [scanFind_eq_none _ _ 0 (fun k hk1 hk2 => by
        simp [hall k (by omega)]
        omega)]
      rfl
    · rw [scanFind_eq_some _ _ 0 fs.super_block.total_inodes (Nat.zero_le _) (by omega)
        (by simp) (fun k _ hk => by simp [hall k hk]; omega)]
      simp

/-- The superblock after `format` marks inode 0 used. -/
def fmtSB1 : SuperBlock :=
  { magic := MAGIC, block_size := BLOCK_SIZE, total_blocks := 25600,
    inode_blocks := 24, data_blocks := 25573, total_inodes := 1024,
    free_blocks := 25573, free_inodes := 1023,
    block_bitmap := 1, inode_bitmap := 2, inode_start := 3, data_start := 27 }

/-- The superblock stored by a completed `format`. -/
def fmtSBF : SuperBlock :=
  { magic := MAGIC, block_size := BLOCK_SIZE, total_blocks := 25600,
    inode_blocks := 24, data_blocks := 25573, total_inodes := 1024,
    free_blocks := 25572, free_inodes := 1023,
    block_bitmap := 1, inode_bitmap := 2, inode_start := 3, data_start := 27 }

/-- The image state after `format` marks inode 0 used. -/
def fmtB (fs : DiskFS) : DiskFS :=
  { fs with
    super_block := fmtSB1,
    disk_super_block := fmtSB1,
    block_bitmap_bits := fun _ => false,
    inode_bitmap_bits := Function.update (fun _ => false) 0 true }

/-- The image state after `format` also wrote the inode table. -/
def fmtC (fs : DiskFS) : DiskFS := fmtWithTable (fmtB fs)

/-- The image state after `format` also wrote the root inode. -/
def fmtD (fs : DiskFS) : DiskFS := fmtWithRoot fs.clock (fmtC fs) 27

/-- The image state after `format` also marked the root's block used. -/
def fmtE (fs : DiskFS) : DiskFS :=
  { fmtD fs with
    super_block := fmtSBF,
    disk_super_block := fmtSBF,
    block_bitmap_bits := Function.update (fun _ => false) 0 true }

/-- Marking inode 0 used in the freshly initialized image yields `fmtB`. -/
theorem fmt_hB (fs : DiskFS) : (fmtA fs).set_inode_bitmap 0 true = (true, fmtB fs) := by
  rw [set_inode_bitmap_eq]
  all_goals try simp only [fmtA, fmtB, inodeBitSB, fmtSB0, fmtSB1]
  all_goals try norm_num [super_block_blocks, block_bitmap_size_eq, inode_bitmap_size_eq,
    inode_area_size_eq, MAX_BLOCKS_eq, MAX_INODES, BLOCK_SIZE, u32dec, U32]

/-- `format` allocates block 27 (the first data block) for the root. -/
theorem fmt_hrb (fs : DiskFS) : (fmtC fs).find_free_block = (27 : Int) := by
  rw [find_free_block_eq _ _ 0]
  all_goals try simp only [fmtC, fmtWithTable, fmtB, fmtSB1]
  all_goals try norm_num

/-- Marking the root's data block used yields `fmtE`. -/
theorem fmt_hE (fs : DiskFS) :
    (fmtD fs).set_block_bitmap 27 true = (true, fmtE fs) := by
  rw [set_block_bitmap_eq]
  all_goals try simp only [fmtD, fmtWithRoot, fmtC, fmtWithTable, fmtB, fmtE, blockBitSB,
    fmtSB1, fmtSBF]
  all_goals try norm_num [u32dec, U32, BLOCK_SIZE, block_bitmap_size_eq]

/-- Closed form of `format`: it succeeds and produces the `fmtWithDir (fmtE fs)`
image. -/
theorem format_eq (fs : DiskFS) : fs.format = (true, fmtWithDir (fmtE fs)) := by
  simp only [DiskFS.format]
  rw [fmt_hB]
  dsimp only
  rw [show fmtWithTable (fmtB fs) = fmtC fs from rfl]
  rw [fmt_hrb]
  norm_num
  rw [show fmtWithRoot fs.clock (fmtC fs) 27 = fmtD fs from rfl]
  rw [show Int.toNat 27 = 27 from rfl]
  rw [fmt_hE]

/-- C4: a successful `format` stores a superblock with `free_blocks =
data_blocks - 1` and `free_inodes = total_inodes - 1` in the image (the
root's data block and inode 0 being reserved), and leaves the filesystem
unmounted. -/
theorem C4_format_reserves_root (fs : DiskFS) (h : fs.is_mounted = false) :
    (fs.format).1 = true ∧
    (fs.format).2.disk_super_block.free_blocks =
      (fs.format).2.disk_super_block.data_blocks - 1 ∧
    (fs.format).2.disk_super_block.free_inodes =
      (fs.format).2.disk_super_block.total_inodes - 1 ∧
    (fs.format).2.is_mounted = false := by
  rw [format_eq]
  refine ⟨rfl, ?_, ?_, ?_⟩
  · simp only [fmtWithDir, fmtE, fmtSBF]
  · simp only [fmtWithDir, fmtE, fmtSBF]
  · simp only [fmtWithDir, fmtE, fmtD, fmtWithRoot, fmtC, fmtWithTable, fmtB]
    exact h

/-- Witness for C4 at the concrete fresh image. -/
theorem C4_format_reserves_root_witness :
    (DiskFS.format initFS).1 = true ∧
    (DiskFS.format initFS).2.disk_super_block.free_blocks =
      (DiskFS.format initFS).2.disk_super_block.data_blocks - 1 ∧
    (DiskFS.format initFS).2.disk_super_block.free_inodes =
      (DiskFS.format initFS).2.disk_super_block.total_inodes - 1 ∧
    (DiskFS.format initFS).2.is_mounted = false :=
  C4_format_reserves_root initFS rfl

/-- `blockBitSB` only changes `free_blocks`: field projections. -/
@[simp]
theorem blockBitSB_magic (fs : DiskFS) (v : Bool) (idx : Nat) :
    (blockBitSB fs v idx).magic = fs.super_block.magic := by
  cases v <;> by_cases h : fs.block_bitmap_bits idx <;> simp [blockBitSB, h]

@[simp]
theorem blockBitSB_total_blocks (fs : DiskFS) (v : Bool) (idx : Nat) :
    (blockBitSB fs v idx).total_blocks = fs.super_block.total_blocks := by
  cases v <;> by_cases h : fs.block_bitmap_bits idx <;> simp [blockBitSB, h]

@[simp]
theorem blockBitSB_data_blocks (fs : DiskFS) (v : Bool) (idx : Nat) :
    (blockBitSB fs v idx).data_blocks = fs.super_block.data_blocks := by
  cases v <;> by_cases h : fs.block_bitmap_bits idx <;> simp [blockBitSB, h]

@[simp]
theorem blockBitSB_total_inodes (fs : DiskFS) (v : Bool) (idx : Nat) :
    (blockBitSB fs v idx).total_inodes = fs.super_block.total_inodes := by
  cases v <;> by_cases h : fs.block_bitmap_bits idx <;> simp [blockBitSB, h]

@[simp]
theorem blockBitSB_free_inodes (fs : DiskFS) (v : Bool) (idx : Nat) :
    (blockBitSB fs v idx).free_inodes = fs.super_block.free_inodes := by
  cases v <;> by_cases h : fs.block_bitmap_bits idx <;> simp [blockBitSB, h]

@[simp]
theorem blockBitSB_block_bitmap (fs : DiskFS) (v : Bool) (idx : Nat) :
    (blockBitSB fs v idx).block_bitmap = fs.super_block.block_bitmap := by
  cases v <;> by_cases h : fs.block_bitmap_bits idx <;> simp [blockBitSB, h]

@[simp]
theorem blockBitSB_inode_bitmap (fs : DiskFS) (v : Bool) (idx : Nat) :
    (blockBitSB fs v idx).inode_bitmap = fs.super_block.inode_bitmap := by
  cases v <;> by_cases h : fs.block_bitmap_bits idx <;> simp [blockBitSB, h]

@[simp]
theorem blockBitSB_inode_start (fs : DiskFS) (v : Bool) (idx : Nat) :
    (blockBitSB fs v idx).inode_start = fs.super_block.inode_start := by
  cases v <;> by_cases h : fs.block_bitmap_bits idx <;> simp [blockBitSB, h]

@[simp]
theorem blockBitSB_data_start (fs : DiskFS) (v : Bool) (idx : Nat) :
    (blockBitSB fs v idx).data_start = fs.super_block.data_start := by
  cases v <;> by_cases h : fs.block_bitmap_bits idx <;> simp [blockBitSB, h]

@[simp]
theorem inodeBitSB_magic (fs : DiskFS) (v : Bool) (idx : Nat) :
    (inodeBitSB fs v idx).magic = fs.super_block.magic := by
  cases v <;> by_cases h : fs.inode_bitmap_bits idx <;> simp [inodeBitSB, h]

@[simp]
theorem inodeBitSB_total_blocks (fs : DiskFS) (v : Bool) (idx : Nat) :
    (inodeBitSB fs v idx).total_blocks = fs.super_block.total_blocks := by
  cases v <;> by_cases h : fs.inode_bitmap_bits idx <;> simp [inodeBitSB, h]

@[simp]
theorem inodeBitSB_data_blocks (fs : DiskFS) (v : Bool) (idx : Nat) :
    (inodeBitSB fs v idx).data_blocks = fs.super_block.data_blocks := by
  cases v <;> by_cases h : fs.inode_bitmap_bits idx <;> simp [inodeBitSB, h]

@[simp]
theorem inodeBitSB_total_inodes (fs : DiskFS) (v : Bool) (idx : Nat) :
    (inodeBitSB fs v idx).total_inodes = fs.super_block.total_inodes := by
  cases v <;> by_cases h : fs.inode_bitmap_bits idx <;> simp [inodeBitSB, h]

@[simp]
theorem inodeBitSB_free_blocks (fs : DiskFS) (v : Bool) (idx : Nat) :
    (inodeBitSB fs v idx).free_blocks = fs.super_block.free_blocks := by
  cases v <;> by_cases h : fs.inode_bitmap_bits idx <;> simp [inodeBitSB, h]

@[simp]
theorem inodeBitSB_block_bitmap (fs : DiskFS) (v : Bool) (idx : Nat) :
    (inodeBitSB fs v idx).block_bitmap = fs.super_block.block_bitmap := by
  cases v <;> by_cases h : fs.inode_bitmap_bits idx <;> simp [inodeBitSB, h]

@[simp]
theorem inodeBitSB_inode_bitmap (fs : DiskFS) (v : Bool) (idx : Nat) :
    (inodeBitSB fs v idx).inode_bitmap = fs.super_block.inode_bitmap := by
  cases v <;> by_cases h : fs.inode_bitmap_bits idx <;> simp [inodeBitSB, h]

@[simp]
theorem inodeBitSB_inode_start (fs : DiskFS) (v : Bool) (idx : Nat) :
    (inodeBitSB fs v idx).inode_start = fs.super_block.inode_start := by
  cases v <;> by_cases h : fs.inode_bitmap_bits idx <;> simp [inodeBitSB, h]

@[simp]
theorem inodeBitSB_data_start (fs : DiskFS) (v : Bool) (idx : Nat) :
    (inodeBitSB fs v idx).data_start = fs.super_block.data_start := by
  cases v <;> by_cases h : fs.inode_bitmap_bits idx <;> simp [inodeBitSB, h]

/-- Setting a bit to its current value leaves the superblock unchanged. -/
theorem blockBitSB_noflip (fs : DiskFS) (v : Bool) (idx : Nat)
    (h : fs.block_bitmap_bits idx = v) : blockBitSB fs v idx = fs.super_block := by
  cases v <;> simp [blockBitSB, h]

/-- Setting an inode bit to its current value leaves the superblock unchanged. -/
theorem inodeBitSB_noflip (fs : DiskFS) (v : Bool) (idx : Nat)
    (h : fs.inode_bitmap_bits idx = v) : inodeBitSB fs v idx = fs.super_block := by
  cases v <;> simp [inodeBitSB, h]

/-- A flipping block-bitmap write always moves the counter. -/
theorem blockBitSB_flip_ne (fs : DiskFS) (v : Bool) (idx : Nat)
    (h : fs.block_bitmap_bits idx ≠ v) :
    (blockBitSB fs v idx).free_blocks ≠ fs.super_block.free_blocks := by
  cases v <;> simp_all [blockBitSB]
  · exact u32inc_ne _
  · exact u32dec_ne _

/-- A flipping inode-bitmap write always moves the counter. -/
theorem inodeBitSB_flip_ne (fs : DiskFS) (v : Bool) (idx : Nat)
    (h : fs.inode_bitmap_bits idx ≠ v) :
    (inodeBitSB fs v idx).free_inodes ≠ fs.super_block.free_inodes := by
  cases v <;> simp_all [inodeBitSB]
  · exact u32inc_ne _
  · exact u32dec_ne _
/-- C8: for a valid index of either bitmap, `set(i, v)` succeeds and moves the
corresponding free counter exactly when the bit flips; repeating the same
call still succeeds and leaves the counter unchanged. -/
theorem C8_bitmap_set_transition (fs : DiskFS) (b i : Nat) (v : Bool)
    (hb1 : fs.super_block.data_start ≤ b)
    (hb2 : b < fs.super_block.data_start + fs.super_block.data_blocks)
    (hb3 : (b - fs.super_block.data_start) / (BLOCK_SIZE * 8) < block_bitmap_size)
    (hb4 : fs.super_block.block_bitmap +
      (b - fs.super_block.data_start) / (BLOCK_SIZE * 8) < fs.super_block.total_blocks)
    (hi1 : i < fs.super_block.total_inodes)
    (hi2 : i / (BLOCK_SIZE * 8) < inode_bitmap_size)
    (hi3 : fs.super_block.inode_bitmap + i / (BLOCK_SIZE * 8) < fs.super_block.total_blocks) :
    ((fs.set_block_bitmap b v).1 = true ∧
     ((fs.set_block_bitmap b v).2.set_block_bitmap b v).1 = true ∧
     ((fs.set_block_bitmap b v).2.set_block_bitmap b v).2.super_block.free_blocks =
       (fs.set_block_bitmap b v).2.super_block.free_blocks ∧
     (fs.block_bitmap_bits (b - fs.super_block.data_start) = v →
       (fs.set_block_bitmap b v).2.super_block.free_blocks = fs.super_block.free_blocks) ∧
     (fs.block_bitmap_bits (b - fs.super_block.data_start) ≠ v →
       (fs.set_block_bitmap b v).2.super_block.free_blocks ≠ fs.super_block.free_blocks)) ∧
    ((fs.set_inode_bitmap i v).1 = true ∧
     ((fs.set_inode_bitmap i v).2.set_inode_bitmap i v).1 = true ∧
     ((fs.set_inode_bitmap i v).2.set_inode_bitmap i v).2.super_block.free_inodes =
       (fs.set_inode_bitmap i v).2.super_block.free_inodes ∧
     (fs.inode_bitmap_bits i = v →
       (fs.set_inode_bitmap i v).2.super_block.free_inodes = fs.super_block.free_inodes) ∧
     (fs.inode_bitmap_bits i ≠ v →
       (fs.set_inode_bitmap i v).2.super_block.free_inodes ≠ fs.super_block.free_inodes)) := by
  rw [set_block_bitmap_eq fs b v hb1 hb2 hb3 hb4, set_inode_bitmap_eq fs i v hi1 hi2 hi3]
  rw [set_block_bitmap_eq, set_inode_bitmap_eq]
  all_goals try first
    | (simpa using hb1)
    | (simpa using hb2)
    | (simpa using hb3)
    | (simpa using hb4)
    | (simpa using hi1)
    | (simpa using hi2)
    | (simpa using hi3)
  refine ⟨⟨rfl, rfl, ?_, ?_, ?_⟩, rfl, rfl, ?_, ?_, ?_⟩
  · dsimp only
    rw [blockBitSB_noflip]
    simp [Function.update_apply]
  · intro hcur
    dsimp only
    rw [blockBitSB_noflip _ _ _ hcur]
  · intro hcur
    dsimp only
    exact blockBitSB_flip_ne fs v _ hcur
  · dsimp only
    rw [inodeBitSB_noflip]
    simp [Function.update_apply]
  · intro hcur
    dsimp only
    rw [inodeBitSB_noflip _ _ _ hcur]
  · intro hcur
    dsimp only
    exact inodeBitSB_flip_ne fs v _ hcur

/-- Witness for C8 on the freshly formatted, mounted image. -/
theorem C8_witness :
    ((FS1.set_block_bitmap 30 true).1 = true ∧
     ((FS1.set_block_bitmap 30 true).2.set_block_bitmap 30 true).1 = true ∧
     ((FS1.set_block_bitmap 30 true).2.set_block_bitmap 30 true).2.super_block.free_blocks =
       (FS1.set_block_bitmap 30 true).2.super_block.free_blocks ∧
     (FS1.block_bitmap_bits (30 - FS1.super_block.data_start) = true →
       (FS1.set_block_bitmap 30 true).2.super_block.free_blocks =
         FS1.super_block.free_blocks) ∧
     (FS1.block_bitmap_bits (30 - FS1.super_block.data_start) ≠ true →
       (FS1.set_block_bitmap 30 true).2.super_block.free_blocks ≠
         FS1.super_block.free_blocks)) ∧
    ((FS1.set_inode_bitmap 5 true).1 = true ∧
     ((FS1.set_inode_bitmap 5 true).2.set_inode_bitmap 5 true).1 = true ∧
     ((FS1.set_inode_bitmap 5 true).2.set_inode_bitmap 5 true).2.super_block.free_inodes =
       (FS1.set_inode_bitmap 5 true).2.super_block.free_inodes ∧
     (FS1.inode_bitmap_bits 5 = true →
       (FS1.set_inode_bitmap 5 true).2.super_block.free_inodes =
         FS1.super_block.free_inodes) ∧
     (FS1.inode_bitmap_bits 5 ≠ true →
       (FS1.set_inode_bitmap 5 true).2.super_block.free_inodes ≠
         FS1.super_block.free_inodes)) :=
  C8_bitmap_set_transition FS1 30 5 true (by decide) (by decide) (by decide) (by decide)
    (by decide) (by decide) (by decide)

/-- C9: on a state whose bitmap blocks pass the `read_block` range checks
(and whose inode bitmap fits in its first block, as in every formatted
image), `find_free_block` returns `data_start` plus the smallest data-region
index whose block-bitmap bit is zero and `find_free_inode` the smallest
inode number whose bit is zero; when no bit in range is zero each returns
the `-1` sentinel. -/
theorem C9_find_free_first_fit (fs : DiskFS)
    (hb : fs.super_block.block_bitmap < fs.super_block.total_blocks)
    (hib : fs.super_block.inode_bitmap < fs.super_block.total_blocks)
    (hti : fs.super_block.total_inodes ≤ BLOCK_SIZE * 8) :
    (∀ i, i < fs.super_block.data_blocks → fs.block_bitmap_bits i = false →
      (∀ j, j < i → fs.block_bitmap_bits j = true) →
      fs.find_free_block = ((fs.super_block.data_start + i : Nat) : Int)) ∧
    ((∀ i, i < fs.super_block.data_blocks → fs.block_bitmap_bits i = true) →
      fs.find_free_block = -1) ∧
    (∀ i, i < fs.super_block.total_inodes → fs.inode_bitmap_bits i = false →
      (∀ j, j < i → fs.inode_bitmap_bits j = true) →
      fs.find_free_inode = (i : Int)) ∧
    ((∀ i, i < fs.super_block.total_inodes → fs.inode_bitmap_bits i = true) →
      fs.find_free_inode = -1) :=
  ⟨fun i h1 h2 h3 => find_free_block_eq fs hb i h1 h2 h3,
   fun h => find_free_block_eq_none fs hb h,
   fun i h1 h2 h3 => find_free_inode_eq fs i h1 h2 h3 hti hib,
   fun h => find_free_inode_eq_none fs h hti hib⟩

/-- Witness for C9: after format-and-mount the first free block is index 1. -/
theorem C9_witness :
    FS1.find_free_block = ((FS1.super_block.data_start + 1 : Nat) : Int) ∧
    FS1.find_free_inode = (1 : Int) :=
  ⟨(C9_find_free_first_fit FS1 (by decide) (by decide) (by decide)).1 1
      (by decide) (by decide) (fun j hj => by interval_cases j; decide),
   (C9_find_free_first_fit FS1 (by decide) (by decide) (by decide)).2.2.1 1
      (by decide) (by decide) (fun j hj => by interval_cases j; decide)⟩

/-- C1, failing input: on the S2 image (inode 1, 15 bytes in one allocated
block), `read_file(1, buf, 10, 20)` returns 10 even though `offset = 20`
exceeds `inode.size = 15`, where the specified effective read size
`min(size, max(0, inode.size - offset))` is 0: the unsigned `size_t`
subtraction `inode.size - offset` wraps and the `max_read <= 0` guard never
fires for `offset > size`. -/
theorem C1_read_beyond_eof_bug :
    (FS3.inode_table 1).used = 1 ∧ (FS3.inode_table 1).type = 1 ∧
    (FS3.inode_table 1).size = 15 ∧
    (DiskFS.read_file FS3 1 (fun _ => 0) 10 20).1 = 10 ∧
    min (10 : Int) (max 0 ((15 : Int) - 20)) = 0 := by decide

/-- `readLoop` never reads the on-disk superblock copy. -/
theorem readLoop_disk_sb (fs : DiskFS) (x : SuperBlock) (inode : Inode) (rs : Nat) :
    ∀ (fuel br cur : Nat) (buf : Nat → Nat),
      readLoop { fs with disk_super_block := x } inode rs fuel br cur buf =
        readLoop fs inode rs fuel br cur buf := by
  intro fuel
  induction fuel with
  | zero => intro br cur buf; simp [readLoop]
  | succ n ih =>
    intro br cur buf
    simp only [readLoop]
    split_ifs <;> first | rfl | (exact ih _ _ _)

/-- `read_file` never reads the on-disk superblock copy. -/
theorem read_file_disk_sb (fs : DiskFS) (x : SuperBlock) (inum : Int)
    (buffer : Nat → Nat) (size off : Nat) :
    DiskFS.read_file { fs with disk_super_block := x } inum buffer size off =
      fs.read_file inum buffer size off := by
  simp only [DiskFS.read_file]
  split_ifs <;> first | rfl | (exact readLoop_disk_sb fs x _ _ _ _ _ _)

/-- C3: unmounting a mounted filesystem (which writes the superblock back)
and mounting the same image again succeeds and preserves the results of
`list_files` and of every `read_file` call. -/
theorem C3_persistence (fs : DiskFS) (h : fs.is_mounted = true)
    (hm : fs.super_block.magic.take 7 = MAGIC.take 7) :
    ((fs.unmount).2.mount).1 = true ∧
    ((fs.unmount).2.mount).2.list_files = fs.list_files ∧
    ∀ (inum : Int) (buffer : Nat → Nat) (size off : Nat),
      ((fs.unmount).2.mount).2.read_file inum buffer size off =
        fs.read_file inum buffer size off := by
  obtain ⟨m, sb, dsb, bb, ib, it, dat, dr, clk⟩ := fs
  have h2 : m = true := h
  subst h2
  have hm2 : sb.magic.take 7 = MAGIC.take 7 := hm
  simp only [DiskFS.unmount, DiskFS.mount]
  norm_num
  rw [if_pos hm2]
  refine ⟨rfl, rfl, fun inum buffer size off =>
    read_file_disk_sb ⟨true, sb, dsb, bb, ib, it, dat, dr, clk⟩ sb inum buffer size off⟩

/-- Witness for C3 at the S2 image. -/
theorem C3_witness :
    ((FS3.unmount).2.mount).1 = true ∧
    ((FS3.unmount).2.mount).2.list_files = FS3.list_files ∧
    ((FS3.unmount).2.mount).2.read_file 1 (fun _ => 0) 15 0 =
      FS3.read_file 1 (fun _ => 0) 15 0 :=
  ⟨(C3_persistence FS3 (by decide) (by decide)).1,
   (C3_persistence FS3 (by decide) (by decide)).2.1,
   (C3_persistence FS3 (by decide) (by decide)).2.2 1 (fun _ => 0) 15 0⟩

/-- C5: when the directory has no free non-reserved slot while a free inode
exists, `create_file` with a valid unused name returns an error, clears the
inode-bitmap bit it had set, and leaves `free_inodes` at its value before
the call. -/
theorem C5_create_rollback (fs : DiskFS) (name : String) (i0 : Nat)
    (h1 : fs.is_mounted = true)
    (h2 : ¬(name = ""))
    (h3 : name.length < MAX_FILENAME)
    (h4 : (fs.list_files).any (fun e => (e.valid != 0) && (name == e.name)) = false)
    (h5 : (fs.inode_table 0).type = 2)
    (h6 : (fs.inode_table 0).blocks 0 ≠ 0)
    (h7 : (fs.inode_table 0).blocks 0 < fs.super_block.total_blocks)
    (hlt : i0 < fs.super_block.total_inodes)
    (hfree : fs.inode_bitmap_bits i0 = false)
    (hmin : ∀ j, j < i0 → fs.inode_bitmap_bits j = true)
    (hti : fs.super_block.total_inodes ≤ BLOCK_SIZE * 8)
    (hib : fs.super_block.inode_bitmap < fs.super_block.total_blocks)
    (hfull : ∀ k, k < DIR_ENTRY_COUNT → 1 ≤ k → (fs.dir k).valid ≠ 0)
    (hcnt : fs.super_block.free_inodes < U32) :
    (fs.create_file name).1 = -1 ∧
    (fs.create_file name).2.super_block.free_inodes = fs.super_block.free_inodes ∧
    (fs.create_file name).2.inode_bitmap_bits = fs.inode_bitmap_bits := by
  have hq : i0 / (BLOCK_SIZE * 8) < inode_bitmap_size := by
    rw [inode_bitmap_size_eq]
    have : i0 / (BLOCK_SIZE * 8) = 0 := Nat.div_eq_of_lt (by omega)
    omega
  simp only [DiskFS.create_file]
  rw [h1]
  rw [show (name == "") = false from by simpa using h2]
  rw [show decide (name.length ≥ MAX_FILENAME) = false from by simpa using by omega]
  rw [h4]
  norm_num
  rw [if_neg (show ¬((fs.inode_table 0).blocks 0 = 0) from h6)]
  rw [if_pos h5]
  rw [find_free_inode_eq fs i0 hlt hfree hmin hti hib]
  rw [if_neg (show ¬((i0 : Int) = -1) from by omega)]
  rw [show ((i0 : Int)).toNat = i0 from Int.toNat_natCast i0]
  rw [set_inode_bitmap_eq]
  case h1 => simpa using hlt
  case h2 => exact hq
  case h3 =>
    have hz : i0 / (BLOCK_SIZE * 8) = 0 := Nat.div_eq_of_lt (by omega)
    simpa [hz] using hib
  rw [if_neg (show ¬_ from by simp; omega)]
  rw [scanFind_eq_none _ _ 1 (fun k hk1 hk2 => by
    have := hfull k (by
      have h13 : DIR_ENTRY_COUNT = 113 := DIR_ENTRY_COUNT_eq
      omega) hk1
    simpa using this)]
  rw [set_inode_bitmap_eq]
  case h1 => simpa using hlt
  case h2 => exact hq
  case h3 =>
    have hz : i0 / (BLOCK_SIZE * 8) = 0 := Nat.div_eq_of_lt (by omega)
    simp [hz]
    simpa [hz] using hib
  refine ⟨rfl, ?_, ?_⟩
  · simp only [inodeBitSB]
    simp [Function.update_same, hfree]
    exact u32inc_u32dec _ hcnt
  · simp only [Function.update_idem]
    have : Function.update fs.inode_bitmap_bits i0 false =
        Function.update fs.inode_bitmap_bits i0 (fs.inode_bitmap_bits i0) := by rw [hfree]
    simp [this, Function.update_eq_self]

/-- A mounted image whose root directory is completely full. -/
def fullDirFS : DiskFS :=
  { FS1 with dir := fun i => if i = 0 then dotEntry
                             else { name := "x", inode_num := 2, valid := 1 } }

/-- Witness for C5 on the full-directory image. -/
theorem C5_witness :
    (fullDirFS.create_file "y").1 = -1 ∧
    (fullDirFS.create_file "y").2.super_block.free_inodes =
      fullDirFS.super_block.free_inodes ∧
    (fullDirFS.create_file "y").2.inode_bitmap_bits = fullDirFS.inode_bitmap_bits :=
  C5_create_rollback fullDirFS "y" 1 (by decide) (by decide) (by decide) (by decide)
    (by decide) (by decide) (by decide) (by decide) (by decide) (by decide) (by decide)
    (by decide) (by decide) (by decide)

def countNonzero (blocks : Nat → Nat) : Nat → Nat → Nat
  | _, 0 => 0
  | i, fuel + 1 => (if blocks i ≠ 0 then 1 else 0) + countNonzero blocks (i + 1) fuel

theorem countNonzero_congr (f g : Nat → Nat) :
    ∀ (fuel i : Nat), (∀ m, i ≤ m → m < i + fuel → f m = g m) →
      countNonzero f i fuel = countNonzero g i fuel := by
  intro fuel
  induction fuel with
  | zero => intro i h; rfl
  | succ n ih =>
    intro i h
    simp only [countNonzero]
    rw [h i le_rfl (by omega), ih (i + 1) (fun m hm1 hm2 => h m (by omega) (by omega))]

theorem u32inc_eq_succ (x : Nat) (h : x + 1 < U32) : u32inc x = x + 1 := by
  simp only [u32inc]
  exact Nat.mod_eq_of_lt h
theorem freeBlocksLoop_spec :
    ∀ (fuel i : Nat) (fsx : DiskFS) (inode : Inode),
      (∀ m, i ≤ m → m < i + fuel → inode.blocks m ≠ 0 →
        fsx.super_block.data_start ≤ inode.blocks m ∧
        inode.blocks m < fsx.super_block.data_start + fsx.super_block.data_blocks ∧
        fsx.block_bitmap_bits (inode.blocks m - fsx.super_block.data_start) = true) →
      (∀ m n, i ≤ m → m < i + fuel → i ≤ n → n < i + fuel → m ≠ n →
        inode.blocks m ≠ 0 → inode.blocks n ≠ 0 → inode.blocks m ≠ inode.blocks n) →
      fsx.super_block.data_blocks ≤ BLOCK_SIZE * 8 →
      fsx.super_block.block_bitmap < fsx.super_block.total_blocks →
      fsx.super_block.free_blocks + fuel < U32 →
      (freeBlocksLoop fuel i fsx inode).1.super_block.free_blocks =
        fsx.super_block.free_blocks + countNonzero inode.blocks i fuel ∧
      (freeBlocksLoop fuel i fsx inode).1.super_block.total_blocks =
        fsx.super_block.total_blocks ∧
      (freeBlocksLoop fuel i fsx inode).1.super_block.total_inodes =
        fsx.super_block.total_inodes ∧
      (freeBlocksLoop fuel i fsx inode).1.super_block.inode_bitmap =
        fsx.super_block.inode_bitmap ∧
      (freeBlocksLoop fuel i fsx inode).1.is_mounted = fsx.is_mounted ∧
      (freeBlocksLoop fuel i fsx inode).1.inode_table = fsx.inode_table ∧
      (freeBlocksLoop fuel i fsx inode).1.dir = fsx.dir ∧
      (freeBlocksLoop fuel i fsx inode).1.data = fsx.data ∧
      (freeBlocksLoop fuel i fsx inode).1.inode_bitmap_bits = fsx.inode_bitmap_bits ∧
      (freeBlocksLoop fuel i fsx inode).1.clock = fsx.clock := by
  intro fuel
  induction fuel with
  | zero =>
    intro i fsx inode hA hB hdb hbb hw
    simp [freeBlocksLoop, countNonzero]
  | succ n ih =>
    intro i fsx inode hA hB hdb hbb hw
    by_cases hz : inode.blocks i ≠ 0
    · obtain ⟨ha1, ha2, ha3⟩ := hA i le_rfl (by omega) hz
      have hq : (inode.blocks i - fsx.super_block.data_start) / (BLOCK_SIZE * 8) <
          block_bitmap_size := by
        rw [block_bitmap_size_eq]
        have : (inode.blocks i - fsx.super_block.data_start) / (BLOCK_SIZE * 8) = 0 :=
          Nat.div_eq_of_lt (by omega)
        omega
      have hq2 : fsx.super_block.block_bitmap +
          (inode.blocks i - fsx.super_block.data_start) / (BLOCK_SIZE * 8) <
          fsx.super_block.total_blocks := by
        have : (inode.blocks i - fsx.super_block.data_start) / (BLOCK_SIZE * 8) = 0 :=
          Nat.div_eq_of_lt (by omega)
        omega
      simp only [freeBlocksLoop, if_pos hz]
      rw [set_block_bitmap_eq fsx (inode.blocks i) false ha1 (by omega) hq hq2]
      have hflip : blockBitSB fsx false (inode.blocks i - fsx.super_block.data_start) =
          { fsx.super_block with free_blocks := u32inc fsx.super_block.free_blocks } := by
        simp [blockBitSB, ha3]
      have hinc : u32inc fsx.super_block.free_blocks = fsx.super_block.free_blocks + 1 :=
        u32inc_eq_succ _ (by omega)
      have ihc := ih (i + 1)
        ({ fsx with
            block_bitmap_bits :=
              Function.update fsx.block_bitmap_bits
                (inode.blocks i - fsx.super_block.data_start) false,
            super_block := blockBitSB fsx false (inode.blocks i - fsx.super_block.data_start),
            disk_super_block :=
              blockBitSB fsx false (inode.blocks i - fsx.super_block.data_start) })
        { inode with blocks := Function.update inode.blocks i 0 }
        (by
          intro m hm1 hm2 hmz
          rw [hflip]
          have hmi : m ≠ i := by omega
          simp only [Function.update_apply, if_neg hmi] at hmz ⊢
          obtain ⟨hb1, hb2, hb3⟩ := hA m (by omega) (by omega) hmz
          refine ⟨by simpa using hb1, by simpa using hb2, ?_⟩
          have hne : inode.blocks m ≠ inode.blocks i :=
            hB m i (by omega) (by omega) le_rfl (by omega) hmi hmz hz
          have : inode.blocks m - fsx.super_block.data_start ≠
              inode.blocks i - fsx.super_block.data_start := by omega
          simpa [Function.update_apply, this] using hb3)
        (by
          intro m nn hm1 hm2 hn1 hn2 hmn hmz hnz
          have hmi : m ≠ i := by omega
          have hni : nn ≠ i := by omega
          simp only [Function.update_apply, if_neg hmi, if_neg hni] at hmz hnz ⊢
          exact hB m nn (by omega) (by omega) (by omega) (by omega) hmn hmz hnz)
        (by rw [hflip]; exact hdb)
        (by rw [hflip]; exact hbb)
        (by rw [hflip]; simp only [hinc]; omega)
      have hcount : countNonzero (Function.update inode.blocks i 0) (i + 1) n =
          countNonzero inode.blocks (i + 1) n := by
        refine countNonzero_congr _ _ n (i + 1) (fun m hm1 hm2 => ?_)
        have : m ≠ i := by omega
        simp [Function.update_apply, this]
      obtain ⟨c1, c2, c3, c4, c5, c6, c7, c8, c9, c10⟩ := ihc
      refine ⟨?_, ?_, ?_, ?_, ?_, ?_, ?_, ?_, ?_, ?_⟩
      · rw [c1, hcount, hflip]
        simp only [hinc, countNonzero, if_pos hz]
        omega
      · rw [c2, hflip]
      · rw [c3, hflip]
      · rw [c4, hflip]
      · rw [c5]
      · rw [c6]
      · rw [c7]
      · rw [c8]
      · rw [c9]
      · rw [c10]
    · simp only [freeBlocksLoop, if_neg hz]
      have ihc := ih (i + 1) fsx inode
        (fun m hm1 hm2 hmz => hA m (by omega) (by omega) hmz)
        (fun m nn hm1 hm2 hn1 hn2 hmn hmz hnz =>
          hB m nn (by omega) (by omega) (by omega) (by omega) hmn hmz hnz)
        hdb hbb (by omega)
      obtain ⟨c1, c2, c3, c4, c5, c6, c7, c8, c9, c10⟩ := ihc
      refine ⟨?_, c2, c3, c4, c5, c6, c7, c8, c9, c10⟩
      rw [c1]
      simp only [countNonzero, if_neg hz]
      omega

/-- `open_file` returns `-1` when no directory slot holds a valid entry
with the requested name. -/
theorem open_file_none (fs : DiskFS) (name : String)
    (h : ∀ k, k < DIR_ENTRY_COUNT → (fs.dir k).valid = 0 ∨ ¬(name = (fs.dir k).name)) :
    fs.open_file name = -1 := by
  rw [DiskFS.open_file]
  cases hm : fs.is_mounted with
  | false => simp
  | true =>
    simp only [Bool.not_true, Bool.false_eq_true, if_false]
    have hn : (fs.list_files).find? (fun e => (e.valid != 0) && (name == e.name)) = none := by
      rw [List.find?_eq_none]
      intro x hx
      simp only [DiskFS.list_files, hm, Bool.not_true, Bool.false_eq_true, if_false] at hx
      split at hx
      · simp at hx
      · split at hx
        · simp at hx
        · simp only [List.mem_map, List.mem_filter, List.mem_range] at hx
          obtain ⟨i, ⟨hi, _⟩, rfl⟩ := hx
          rcases h i hi with hv | hv <;> simp [hv]
    rw [hn]

/-- C6: deleting an existing file (a valid directory entry at a slot `t`
naming a used regular-file inode, no other slot carrying the name)
succeeds, clears the inode's `used` flag, raises `free_blocks` by exactly
the number of non-zero block pointers the inode held, tombstones the
directory slot, and a subsequent `open_file` of the name returns `-1`. -/
theorem C6_delete_frees (fs : DiskFS) (name : String) (t : Nat)
    (h1 : fs.is_mounted = true)
    (h5 : (fs.inode_table 0).type = 2)
    (h7 : (fs.inode_table 0).blocks 0 < fs.super_block.total_blocks)
    (ht1 : 1 ≤ t) (ht2 : t < DIR_ENTRY_COUNT)
    (htv : (fs.dir t).valid ≠ 0)
    (htn : name = (fs.dir t).name)
    (huniq : ∀ k, k < DIR_ENTRY_COUNT → ¬(k = t) →
      (fs.dir k).valid = 0 ∨ ¬(name = (fs.dir k).name))
    (hu : (fs.inode_table ((fs.dir t).inode_num)).used ≠ 0)
    (htp : (fs.inode_table ((fs.dir t).inode_num)).type = 1)
    (hA : ∀ m, m < 16 → (fs.inode_table ((fs.dir t).inode_num)).blocks m ≠ 0 →
      fs.super_block.data_start ≤ (fs.inode_table ((fs.dir t).inode_num)).blocks m ∧
      (fs.inode_table ((fs.dir t).inode_num)).blocks m <
        fs.super_block.data_start + fs.super_block.data_blocks ∧
      fs.block_bitmap_bits
        ((fs.inode_table ((fs.dir t).inode_num)).blocks m -
          fs.super_block.data_start) = true)
    (hB : ∀ m, m < 16 → ∀ n, n < 16 → m = n ∨
      (fs.inode_table ((fs.dir t).inode_num)).blocks m = 0 ∨
      (fs.inode_table ((fs.dir t).inode_num)).blocks n = 0 ∨
      (fs.inode_table ((fs.dir t).inode_num)).blocks m ≠
        (fs.inode_table ((fs.dir t).inode_num)).blocks n)
    (hdb : fs.super_block.data_blocks ≤ BLOCK_SIZE * 8)
    (hbb : fs.super_block.block_bitmap < fs.super_block.total_blocks)
    (hw : fs.super_block.free_blocks + 16 < U32)
    (htin : (fs.dir t).inode_num < fs.super_block.total_inodes)
    (hti : fs.super_block.total_inodes ≤ BLOCK_SIZE * 8)
    (hib : fs.super_block.inode_bitmap < fs.super_block.total_blocks) :
    (fs.delete_file name).1 = true ∧
    ((fs.delete_file name).2.inode_table ((fs.dir t).inode_num)).used = 0 ∧
    (fs.delete_file name).2.super_block.free_blocks =
      fs.super_block.free_blocks +
        countNonzero (fs.inode_table ((fs.dir t).inode_num)).blocks 0 16 ∧
    ((fs.delete_file name).2.dir t).valid = 0 ∧
    (fs.delete_file name).2.open_file name = -1 := by
  have h13 : DIR_ENTRY_COUNT = 113 := DIR_ENTRY_COUNT_eq
  have h32 : BLOCK_SIZE * 8 = 32768 := by norm_num [BLOCK_SIZE]
  have ht0 : ¬((fs.dir t).inode_num = 0) := by
    intro h0
    rw [h0] at htp
    omega
  obtain ⟨c1, c2, c3, c4, c5m, c6, c7, c8, c9, c10⟩ :=
    freeBlocksLoop_spec 16 0 fs (fs.inode_table ((fs.dir t).inode_num))
      (fun m _ hm2 hz => hA m (by omega) hz)
      (fun m n _ hm2 _ hn2 hmn hmz hnz => by
        rcases hB m (by omega) n (by omega) with h | h | h | h
        · exact absurd h hmn
        · exact absurd h hmz
        · exact absurd h hnz
        · exact h)
      hdb hbb (by omega)
  simp only [DiskFS.delete_file]
  rw [h1]
  norm_num
  rw [if_pos h5]
  rw [if_neg (show ¬_ from by omega)]
  rw [scanFind_eq_some _ _ 1 t ht1 (by omega) (by simp [htn, htv])
    (fun k hk1 hk2 => by
      rcases huniq k (by omega) (by omega) with hv | hv <;> simp [hv])]
  simp only []
  rw [if_neg (show ¬_ from by push_neg; exact ⟨hu, htp⟩)]
  rw [set_inode_bitmap_eq]
  case h1 => simpa [c3] using htin
  case h2 =>
    rw [inode_bitmap_size_eq]
    have hz : (fs.dir t).inode_num / (BLOCK_SIZE * 8) = 0 := Nat.div_eq_of_lt (by omega)
    omega
  case h3 =>
    have hz : (fs.dir t).inode_num / (BLOCK_SIZE * 8) = 0 := Nat.div_eq_of_lt (by omega)
    simpa [c4, c2, hz] using hib
  refine ⟨rfl, ?_, ?_, ?_, ?_⟩
  · simp [Function.update_apply, ht0]
  · simpa [inodeBitSB_free_blocks] using c1
  · simp [Function.update_apply]
  · refine open_file_none _ name (fun k hk => ?_)
    by_cases hkt : k = t
    · subst hkt
      simp [Function.update_apply]
    · simp only [Function.update_apply, hkt, if_false, c7]
      exact huniq k hk hkt

/-- Witness for C6: deleting the 15-byte file of the S2 image. -/
theorem C6_witness :
    (FS3.delete_file "test1.txt").1 = true ∧
    ((FS3.delete_file "test1.txt").2.inode_table ((FS3.dir 1).inode_num)).used = 0 ∧
    (FS3.delete_file "test1.txt").2.super_block.free_blocks =
      FS3.super_block.free_blocks +
        countNonzero (FS3.inode_table ((FS3.dir 1).inode_num)).blocks 0 16 ∧
    ((FS3.delete_file "test1.txt").2.dir 1).valid = 0 ∧
    (FS3.delete_file "test1.txt").2.open_file "test1.txt" = -1 :=
  C6_delete_frees FS3 "test1.txt" 1 (by decide) (by decide) (by decide) (by decide)
    (by decide) (by decide) (by decide) (by decide) (by decide) (by decide)
    (by decide) (by decide) (by decide) (by decide) (by decide) (by decide)
    (by decide) (by decide)

/-- A successful `scanFind` result satisfies the predicate and is at or
after the start index. -/
theorem scanFind_some (p : Nat → Bool) :
    ∀ (fuel start m : Nat), scanFind p fuel start = some m →
      p m = true ∧ start ≤ m := by
  intro fuel
  induction fuel with
  | zero => intro start m h; simp [scanFind] at h
  | succ n ih =>
    intro start m h
    simp only [scanFind] at h
    by_cases hs : p start = true
    · rw [if_pos hs] at h
      cases h
      exact ⟨hs, le_refl _⟩
    · rw [if_neg hs] at h
      obtain ⟨h1, h2⟩ := ih (start + 1) m h
      exact ⟨h1, by omega⟩

/-- `set_block_bitmap` never changes the inode table. -/
theorem set_block_bitmap_inode_table (fs : DiskFS) (b : Nat) (v : Bool) :
    ((fs.set_block_bitmap b v).2).inode_table = fs.inode_table := by
  simp only [DiskFS.set_block_bitmap, DiskFS.write_super_block]
  by_cases h1 : b < fs.super_block.data_start ∨
      b ≥ fs.super_block.data_start + fs.super_block.data_blocks
  · rw [if_pos h1]
  · rw [if_neg h1]
    by_cases h2 : (b - fs.super_block.data_start) / (BLOCK_SIZE * 8) ≥ block_bitmap_size
    · rw [if_pos h2]
    · rw [if_neg h2]
      by_cases h3 : fs.super_block.block_bitmap +
          (b - fs.super_block.data_start) / (BLOCK_SIZE * 8) ≥ fs.super_block.total_blocks
      · rw [if_pos h3]
      · rw [if_neg h3]

/-- `set_block_bitmap` never changes the directory block. -/
theorem set_block_bitmap_dir (fs : DiskFS) (b : Nat) (v : Bool) :
    ((fs.set_block_bitmap b v).2).dir = fs.dir := by
  simp only [DiskFS.set_block_bitmap, DiskFS.write_super_block]
  by_cases h1 : b < fs.super_block.data_start ∨
      b ≥ fs.super_block.data_start + fs.super_block.data_blocks
  · rw [if_pos h1]
  · rw [if_neg h1]
    by_cases h2 : (b - fs.super_block.data_start) / (BLOCK_SIZE * 8) ≥ block_bitmap_size
    · rw [if_pos h2]
    · rw [if_neg h2]
      by_cases h3 : fs.super_block.block_bitmap +
          (b - fs.super_block.data_start) / (BLOCK_SIZE * 8) ≥ fs.super_block.total_blocks
      · rw [if_pos h3]
      · rw [if_neg h3]

/-- `set_inode_bitmap` never changes the inode table. -/
theorem set_inode_bitmap_inode_table (fs : DiskFS) (i : Nat) (v : Bool) :
    ((fs.set_inode_bitmap i v).2).inode_table = fs.inode_table := by
  simp only [DiskFS.set_inode_bitmap, DiskFS.write_super_block]
  by_cases h1 : i ≥ fs.super_block.total_inodes
  · rw [if_pos h1]
  · rw [if_neg h1]
    by_cases h2 : i / (BLOCK_SIZE * 8) ≥ inode_bitmap_size
    · rw [if_pos h2]
    · rw [if_neg h2]
      by_cases h3 : fs.super_block.inode_bitmap + i / (BLOCK_SIZE * 8) ≥
          fs.super_block.total_blocks
      · rw [if_pos h3]
      · rw [if_neg h3]

/-- `set_inode_bitmap` never changes the directory block. -/
theorem set_inode_bitmap_dir (fs : DiskFS) (i : Nat) (v : Bool) :
    ((fs.set_inode_bitmap i v).2).dir = fs.dir := by
  simp only [DiskFS.set_inode_bitmap, DiskFS.write_super_block]
  by_cases h1 : i ≥ fs.super_block.total_inodes
  · rw [if_pos h1]
  · rw [if_neg h1]
    by_cases h2 : i / (BLOCK_SIZE * 8) ≥ inode_bitmap_size
    · rw [if_pos h2]
    · rw [if_neg h2]
      by_cases h3 : fs.super_block.inode_bitmap + i / (BLOCK_SIZE * 8) ≥
          fs.super_block.total_blocks
      · rw [if_pos h3]
      · rw [if_neg h3]

/-- The block-release loop touches neither the inode table nor the
directory block. -/
theorem freeBlocksLoop_table_dir :
    ∀ (fuel i : Nat) (fs : DiskFS) (inode : Inode),
      (freeBlocksLoop fuel i fs inode).1.inode_table = fs.inode_table ∧
      (freeBlocksLoop fuel i fs inode).1.dir = fs.dir := by
  intro fuel
  induction fuel with
  | zero => intro i fs inode; exact ⟨rfl, rfl⟩
  | succ n ih =>
    intro i fs inode
    by_cases hz : inode.blocks i ≠ 0
    · simp only [freeBlocksLoop, if_pos hz]
      obtain ⟨t1, t2⟩ := ih (i + 1) ((fs.set_block_bitmap (inode.blocks i) false).2)
        { inode with blocks := Function.update inode.blocks i 0 }
      rw [t1, t2, set_block_bitmap_inode_table, set_block_bitmap_dir]
      exact ⟨rfl, rfl⟩
    · simp only [freeBlocksLoop, if_neg hz]
      exact ih (i + 1) fs inode

/-- The filesystem state carried by a write-loop outcome. -/
def WriteRes.state : WriteRes → DiskFS
  | .fail fs => fs
  | .done _ _ fs => fs

/-- The write loop touches neither the inode table nor the directory
block. -/
theorem writeLoop_table_dir (buffer : Nat → Nat) (size : Nat) :
    ∀ (fuel : Nat) (fs : DiskFS) (inode : Inode) (bw co : Nat),
      (writeLoop buffer size fuel fs inode bw co).state.inode_table = fs.inode_table ∧
      (writeLoop buffer size fuel fs inode bw co).state.dir = fs.dir := by
  intro fuel
  induction fuel with
  | zero =>
    intro fs inode bw co
    rw [writeLoop]
    by_cases h : bw ≥ size
    · rw [if_pos h]
      exact ⟨rfl, rfl⟩
    · rw [if_neg h]
      exact ⟨rfl, rfl⟩
  | succ n ih =>
    intro fs inode bw co
    rw [writeLoop]
    by_cases h : bw ≥ size
    · rw [if_pos h]
      exact ⟨rfl, rfl⟩
    · rw [if_neg h]
      simp only []
      split_ifs with h16 hz hfb hbt hbt2
      · exact ⟨rfl, rfl⟩
      · exact ⟨rfl, rfl⟩
      · exact ⟨set_block_bitmap_inode_table _ _ _, set_block_bitmap_dir _ _ _⟩
      · refine ⟨?_, ?_⟩
        · rw [(ih _ _ _ _).1]
          exact set_block_bitmap_inode_table _ _ _
        · rw [(ih _ _ _ _).2]
          exact set_block_bitmap_dir _ _ _
      · exact ⟨rfl, rfl⟩
      · refine ⟨?_, ?_⟩
        · rw [(ih _ _ _ _).1]
        · rw [(ih _ _ _ _).2]

/-- Root stability: inode 0 is a used directory with an allocated first
block, and slot 0 of the root block is the reserved `"."` entry. -/
def rootStable (fs : DiskFS) : Prop :=
  (fs.inode_table 0).type = 2 ∧ (fs.inode_table 0).used = 1 ∧
  (fs.inode_table 0).blocks 0 ≠ 0 ∧ fs.dir 0 = dotEntry

/-- `format` establishes root stability. -/
theorem format_establishes_root (fs : DiskFS) : rootStable ((fs.format).2) := by
  rw [format_eq]
  refine ⟨?_, ?_, ?_, ?_⟩ <;>
    simp [fmtWithDir, fmtE, fmtD, fmtWithRoot, fmtRootI, rootStable, Function.update_apply]

/-- A successful `write_file` preserves root stability. -/
theorem write_preserves_root (fs : DiskFS) (inum : Int) (buffer : Nat → Nat)
    (size off : Nat) (hr : rootStable fs)
    (hok : (fs.write_file inum buffer size off).1 ≠ -1) :
    rootStable (fs.write_file inum buffer size off).2 := by
  obtain ⟨ht2, hu1, hb0, hd0⟩ := hr
  simp only [DiskFS.write_file] at hok ⊢
  split at hok
  next h1 => simp at hok
  next h1 =>
    rw [if_neg h1]
    split at hok
    next h2 => simp at hok
    next h2 =>
      rw [if_neg h2]
      cases hwl : writeLoop buffer size size fs (fs.inode_table inum.toNat) 0 off with
      | fail fs2 =>
        rw [hwl] at hok
        simp at hok
      | done bw inode2 fs2 =>
        simp only []
        have hL := writeLoop_table_dir buffer size size fs (fs.inode_table inum.toNat) 0 off
        rw [hwl] at hL
        simp only [WriteRes.state] at hL
        push_neg at h2
        have hnz0 : ¬((0 : Nat) = inum.toNat) := by
          intro h0
          rw [← h0] at h2
          omega
        refine ⟨?_, ?_, ?_, ?_⟩ <;>
          simp [Function.update_apply, hnz0, hL.1, hL.2, ht2, hu1, hb0, hd0]

/-- A successful `create_file` preserves root stability. -/
theorem create_preserves_root (fs : DiskFS) (name : String) (hr : rootStable fs)
    (hok : (fs.create_file name).1 ≠ -1) :
    rootStable (fs.create_file name).2 := by
  obtain ⟨ht2, hu1, hb0, hd0⟩ := hr
  simp only [DiskFS.create_file] at hok ⊢
  by_cases h1 : (!fs.is_mounted || (name == "") || decide (name.length ≥ MAX_FILENAME)) = true
  · rw [if_pos h1] at hok
    simp at hok
  · rw [if_neg h1] at hok ⊢
    by_cases h2 : ((fs.list_files).any fun e => (e.valid != 0) && (name == e.name)) = true
    · rw [if_pos h2] at hok
      simp at hok
    · rw [if_neg h2] at hok ⊢
      by_cases h3 : (fs.inode_table 0).type ≠ 2
      · rw [if_pos h3] at hok
        simp at hok
      · rw [if_neg h3] at hok ⊢
        by_cases h4 : (fs.inode_table 0).blocks 0 = 0
        · rw [if_pos h4] at hok
          simp at hok
        · rw [if_neg h4] at hok ⊢
          by_cases h5 : fs.find_free_inode = -1
          · rw [if_pos h5] at hok
            simp at hok
          · rw [if_neg h5] at hok ⊢
            set fs2 := (({ fs with
                inode_table := Function.update fs.inode_table fs.find_free_inode.toNat
                  { inode_num := 0, size := 0, blocks := fun _ => 0, type := 1, used := 1,
                    create_time := fs.clock, modify_time := fs.clock } }).set_inode_bitmap
              fs.find_free_inode.toNat true).2 with hfs2
            by_cases h6 : (fs.inode_table 0).blocks 0 ≥ fs2.super_block.total_blocks
            · rw [if_pos h6] at hok
              simp at hok
            · rw [if_neg h6] at hok ⊢
              cases hsf : scanFind (fun i => (fs2.dir i).valid == 0)
                  (DIR_ENTRY_COUNT - 1) 1 with
              | none =>
                rw [hsf] at hok
                simp at hok
              | some free_index =>
                simp only []
                have hge := (scanFind_some _ _ _ _ hsf).2
                have h0f : ¬((0 : Nat) = free_index) := by omega
                refine ⟨?_, ?_, ?_, ?_⟩ <;>
                  simp [hfs2, Function.update_apply, h0f, set_inode_bitmap_dir,
                    ht2, hu1, hb0, hd0]

/-- A successful `delete_file` preserves root stability. -/
theorem delete_preserves_root (fs : DiskFS) (name : String) (hr : rootStable fs)
    (hok : (fs.delete_file name).1 = true) :
    rootStable (fs.delete_file name).2 := by
  obtain ⟨ht2, hu1, hb0, hd0⟩ := hr
  simp only [DiskFS.delete_file] at hok ⊢
  by_cases h1 : (!fs.is_mounted) = true
  · rw [if_pos h1] at hok
    simp at hok
  · rw [if_neg h1] at hok ⊢
    by_cases h2 : (fs.inode_table 0).type ≠ 2
    · rw [if_pos h2] at hok
      simp at hok
    · rw [if_neg h2] at hok ⊢
      by_cases h3 : (fs.inode_table 0).blocks 0 ≥ fs.super_block.total_blocks
      · rw [if_pos h3] at hok
        simp at hok
      · rw [if_neg h3] at hok ⊢
        cases hsf : scanFind (fun i => ((fs.dir i).valid != 0) && (name == (fs.dir i).name))
            (DIR_ENTRY_COUNT - 1) 1 with
        | none =>
          rw [hsf] at hok
          simp at hok
        | some tgt =>
          rw [hsf] at hok
          simp only [] at hok ⊢
          by_cases h4 : (fs.inode_table ((fs.dir tgt).inode_num)).used = 0 ∨
              (fs.inode_table ((fs.dir tgt).inode_num)).type ≠ 1
          · rw [if_pos h4] at hok
            simp at hok
          · rw [if_neg h4] at hok ⊢
            have hge := (scanFind_some _ _ _ _ hsf).2
            have h0t : ¬((0 : Nat) = tgt) := by omega
            refine ⟨?_, ?_, ?_, ?_⟩ <;>
              simp [Function.update_apply, h0t, set_inode_bitmap_dir,
                (freeBlocksLoop_table_dir 16 0 fs _).2, ht2, hu1, hb0, hd0]

/-- C7: `format` establishes root stability (inode 0 is a used directory
with a non-zero first block and slot 0 of the root block is the reserved
`"."` entry), and every successful `create_file`, `write_file` and
`delete_file` call preserves it; `read_file` and `list_files` write nothing
back, so they return the state unchanged by construction. -/
theorem C7_root_stability :
    (∀ fs : DiskFS, rootStable ((fs.format).2)) ∧
    (∀ (fs : DiskFS) (name : String), rootStable fs → (fs.create_file name).1 ≠ -1 →
      rootStable (fs.create_file name).2) ∧
    (∀ (fs : DiskFS) (inum : Int) (buffer : Nat → Nat) (size off : Nat), rootStable fs →
      (fs.write_file inum buffer size off).1 ≠ -1 →
      rootStable (fs.write_file inum buffer size off).2) ∧
    (∀ (fs : DiskFS) (name : String), rootStable fs → (fs.delete_file name).1 = true →
      rootStable (fs.delete_file name).2) :=
  ⟨format_establishes_root,
   create_preserves_root,
   write_preserves_root,
   delete_preserves_root⟩

/-- Witness for C7 along the S2 scenario: format, create, write, delete. -/
theorem C7_witness :
    rootStable ((initFS.format).2) ∧
    rootStable (FS1.create_file "test1.txt").2 ∧
    rootStable (FS2.write_file 1 helloContent 15 0).2 ∧
    rootStable (FS3.delete_file "test1.txt").2 :=
  ⟨C7_root_stability.1 initFS,
   C7_root_stability.2.1 FS1 "test1.txt"
     (by exact ⟨by decide, by decide, by decide, by decide⟩) (by decide),
   C7_root_stability.2.2.1 FS2 1 helloContent 15 0
     (by exact ⟨by decide, by decide, by decide, by decide⟩) (by decide),
   C7_root_stability.2.2.2 FS3 "test1.txt"
     (by exact ⟨by decide, by decide, by decide, by decide⟩) (by decide)⟩
